import Mathlib

/-!
Verification development for the embedup-go device update agent.

The definitions below are a shallow embedding of the Go source:

* `CErr` mirrors the error taxonomy of internal/cstmerr/cstmerr.go.
* `cleanPath`, `joinPath`, `hasPrefixStr`, `strContains` model the Go
  standard-library string and path functions used by the agent
  (filepath.Clean, filepath.Join, strings.HasPrefix, strings.Contains)
  for slash-separated paths, the separator used by the target platform.
* `DownloadFile` models APIClient.DownloadFile from
  internal/apiclient/apihandler.go (the resumable transfer).
* `UnzipFile` models shared.UnzipFile from internal/shared/utils.go
  (identical logic to unzipUpdate in the main package).
* `runUpdateCycle` models runUpdateCycle from the main package.
* `processItems` / `FetchContentUpdates` model the per-item decode loop of
  APIClient.FetchContentUpdates; `ProcessLocalAdvertisement`,
  `ProcessContentItem`, `processLoop` and `FetchAndProcessContentUpdates`
  model the content-sync controller in internal/controller/controller.go.

External collaborators (HTTP bodies, the GORM store, the filesystem) are
represented by explicit state values and by environment records whose
fields give the outcomes of the corresponding fallible calls.
-/

namespace EmbedUp

/-- Error taxonomy mirroring internal/cstmerr/cstmerr.go.  Each constructor
corresponds to one cstmerr type; the string argument is the formatted
message the Go constructor stores (underlying wrapped errors are folded
into that message). -/
inductive CErr where
  | clientErr (msg : String)
  | apiRequestFailed (status : Int) (msg : String)
  | headErr (msg : String)
  | downloadErr (msg : String)
  | timeoutErr (msg : String)
  | fileSystemErr (msg : String)
  | fileIOErr (msg : String)
  | fileDeleteErr (msg : String)
  | archiveErr (msg : String)
  | scriptErr (msg : String)
  | dbNotFound (msg : String)
  | dbQueryErr (msg : String)
  | processErr (msg : String)
deriving DecidableEq

def slashStr : String := "/"

def dotStr : String := "."

def dotdotStr : String := ".."

def emptyStr : String := ""

/-- Model of strings.HasPrefix (Go): is the second argument a prefix of the
first. -/
def hasPrefixStr (s pre : String) : Bool :=
  pre.data.isPrefixOf s.data

/-- Helper for `strContains`: does the character list contain the pattern as
a contiguous sublist. -/
def listHasInfix (pat : List Char) : List Char → Bool
  | [] => pat.isEmpty
  | c :: rest => pat.isPrefixOf (c :: rest) || listHasInfix pat rest

/-- Model of strings.Contains (Go). -/
def strContains (s pat : String) : Bool :=
  listHasInfix pat.data s.data

/-- Split a character list on the path separator character. -/
def splitSlashAux : List Char → List Char → List (List Char)
  | [], acc => [acc.reverse]
  | c :: rest, acc =>
    if c = '/' then acc.reverse :: splitSlashAux rest []
    else splitSlashAux rest (c :: acc)

/-- Core of the lexical cleaning pass of Go filepath.Clean, processing the
path elements left to right against an output stack `acc` (stored
reversed).  Empty and dot elements are dropped; a dotdot element pops the
stack when possible, is dropped at the root of a rooted path, and is kept
for relative paths that escape upward. -/
def cleanComps (rooted : Bool) (acc : List String) : List String → List String
  | [] => acc.reverse
  | c :: rest =>
    if c = emptyStr ∨ c = dotStr then cleanComps rooted acc rest
    else if c = dotdotStr then
      match acc with
      | [] =>
        if rooted then cleanComps rooted [] rest
        else cleanComps rooted [dotdotStr] rest
      | a :: tl =>
        if a = dotdotStr then cleanComps rooted (dotdotStr :: a :: tl) rest
        else cleanComps rooted tl rest
    else cleanComps rooted (c :: acc) rest

/-- Join path elements back with the separator. -/
def joinSlash : List String → String
  | [] => emptyStr
  | [c] => c
  | c :: c2 :: rest => c ++ slashStr ++ joinSlash (c2 :: rest)

/-- Model of Go filepath.Clean for slash-separated paths. -/
def cleanPath (p : String) : String :=
  if p = emptyStr then dotStr
  else
    let rooted := hasPrefixStr p slashStr
    let comps := (splitSlashAux p.data []).map String.mk
    let cleaned := cleanComps rooted [] comps
    if cleaned = [] then (if rooted then slashStr else dotStr)
    else (if rooted then slashStr else emptyStr) ++ joinSlash cleaned

/-- Model of Go filepath.Join for two elements: non-empty elements are
joined with the separator and the result is cleaned. -/
def joinPath (a b : String) : String :=
  if a = emptyStr ∧ b = emptyStr then emptyStr
  else if a = emptyStr then cleanPath b
  else if b = emptyStr then cleanPath a
  else cleanPath (a ++ slashStr ++ b)

/-! ### Resumable transfer: APIClient.DownloadFile -/

/-- Outcome of the HEAD probe once the adapter call itself succeeded.
`totalSize` is the int64 value strconv.ParseInt extracts from the
X-Content-Length / Content-Length header (0 when the header is missing or
unparseable — the Go code ignores the parse error); `supportsRange` is
whether the Accept-Ranges header equals bytes. -/
structure HeadInfo where
  statusCode : Int
  totalSize : Int
  supportsRange : Bool
deriving DecidableEq

/-- Outcome of the streaming GET once the adapter call itself succeeded.
`body` is the sequence of bytes io.Copy actually transfers to the file;
`copyErr` is the error io.Copy returns after writing `body`, if any
(its Go message string, used for the timeout classification). -/
structure GetResponse where
  statusCode : Int
  body : List Nat
  copyErr : Option String
deriving DecidableEq

/-- The remote server as seen by one DownloadFile call: the HEAD outcome
and the GET outcome as a function of the Range request offset sent
(`none` when no Range header is sent).  `.error` on either models a
transport-level failure of the adapter call. -/
structure Server where
  head : Except String HeadInfo
  get : Option Int → Except String GetResponse

/-- Result of a DownloadFile call: the returned error value, whether the
body GET was issued, how many body bytes were transferred, and the final
destination file content (`none` = file does not exist). -/
structure DLOut where
  result : Except CErr Unit
  getIssued : Bool
  bytesWritten : Nat
  file : Option (List Nat)

def headStatusMsg (s : Int) : String :=
  "HEAD request failed with status: " ++ toString s

def dlGetFailMsg (e : String) : String :=
  "download GET request failed: " ++ e

def dlStatusMsg (s : Int) : String :=
  "download request failed with status: " ++ toString s

def copyFailMsg (e : String) : String :=
  "error reading download stream or writing to file: " ++ e

def cdeMsg : String := "context deadline exceeded"

/-- Resume offset: size of the existing destination file (0 when absent),
as determined by os.Stat. -/
def resumeOffset : Option (List Nat) → Int
  | some c => (c.length : Int)
  | none => 0

/-- Steps of DownloadFile after the streaming GET succeeded at transport
level: status check, range-not-honored fallback (200 despite a resume
offset reopens the file truncated), the body copy, and the classification
of a copy failure as Timeout exactly when its message contains
"context deadline exceeded". -/
def downloadAfterGet (file0 : Option (List Nat)) (useRange : Bool)
    (g : GetResponse) : DLOut :=
  if g.statusCode ≠ 200 ∧ g.statusCode ≠ 206 then
    { result := .error (.downloadErr (dlStatusMsg g.statusCode)),
      getIssued := true, bytesWritten := 0, file := file0 }
  else
    -- after step 4 the in-scope currentOffset is positive iff useRange
    let trunc := useRange = false ∨ g.statusCode = 200
    let base := if trunc then [] else file0.getD []
    let newFile := some (base ++ g.body)
    match g.copyErr with
    | some m =>
      if strContains m cdeMsg then
        { result := .error (.timeoutErr m), getIssued := true,
          bytesWritten := g.body.length, file := newFile }
      else
        { result := .error (.downloadErr (copyFailMsg m)), getIssued := true,
          bytesWritten := g.body.length, file := newFile }
    | none =>
      { result := .ok (), getIssued := true,
        bytesWritten := g.body.length, file := newFile }

/-- Steps of DownloadFile after a successful HEAD with acceptable status:
already-complete check, range decision, streaming GET. -/
def downloadWithHead (srv : Server) (file0 : Option (List Nat))
    (h : HeadInfo) : DLOut :=
  let currentOffset := resumeOffset file0
  if h.totalSize > 0 ∧ currentOffset ≥ h.totalSize then
    { result := .ok (), getIssued := false, bytesWritten := 0, file := file0 }
  else
    let useRange : Bool := decide (currentOffset > 0) && h.supportsRange
    match srv.get (if useRange then some currentOffset else none) with
    | .error e =>
      { result := .error (.downloadErr (dlGetFailMsg e)), getIssued := true,
        bytesWritten := 0, file := file0 }
    | .ok g => downloadAfterGet file0 useRange g

/-- Model of APIClient.DownloadFile (internal/apiclient/apihandler.go).
Parent-directory creation and the os.Stat / os.OpenFile error paths of the
local filesystem are modeled as succeeding; the destination file state is
explicit. -/
def DownloadFile (srv : Server) (file0 : Option (List Nat)) : DLOut :=
  match srv.head with
  | .error e =>
    { result := .error (.clientErr e), getIssued := false,
      bytesWritten := 0, file := file0 }
  | .ok h =>
    if h.statusCode ≠ 200 ∧ h.statusCode ≠ 206 then
      { result := .error (.headErr (headStatusMsg h.statusCode)),
        getIssued := false, bytesWritten := 0, file := file0 }
    else downloadWithHead srv file0 h

/-! ### Archive extractor: shared.UnzipFile -/

/-- One archive entry as seen by the extraction loop: its name inside the
archive and whether it is a directory entry. -/
structure ZipEntry where
  name : String
  isDir : Bool
deriving DecidableEq

def illegalPathMsg (nm : String) : String :=
  "Illegal file path in archive: " ++ nm

def openZipMsg : String := "Failed to open zip file"

/-- The per-entry loop of shared.UnzipFile.  For each entry the joined
output path is computed and rejected with an Archive error unless it is
prefixed by the cleaned output directory plus the separator; a directory
entry is created at its output path and a file entry is written at its
output path.  `written` accumulates (reversed) the output paths written so
far; filesystem operations themselves are modeled as succeeding. -/
def unzipEntries (outputDir : String) :
    List ZipEntry → List String → Except CErr Unit × List String
  | [], written => (.ok (), written.reverse)
  | e :: rest, written =>
    let outPath := joinPath outputDir e.name
    if hasPrefixStr outPath (cleanPath outputDir ++ slashStr) = false then
      (.error (.archiveErr (illegalPathMsg e.name)), written.reverse)
    else
      unzipEntries outputDir rest (outPath :: written)

/-- Model of shared.UnzipFile (internal/shared/utils.go; unzipUpdate in the
main package is the same logic).  `zipOk` is whether zip.OpenReader
succeeds; the result carries the returned error value and the list of
output paths written, in order. -/
def UnzipFile (zipOk : Bool) (entries : List ZipEntry)
    (outputDir : String) : Except CErr Unit × List String :=
  if zipOk then unzipEntries outputDir entries []
  else (.error (.archiveErr openZipMsg), [])

/-! ### Update cycle: runUpdateCycle (main package) -/

/-- shared.UpdateInfo: the body of the update-check response. -/
structure UpdateInfo where
  versionCode : Int
  fileURL : String
deriving DecidableEq

/-- The status reports runUpdateCycle attempts to send, in order.  The Go
code formats each as a string body for ReportStatus; report delivery
failures are logged and swallowed, so only the attempts are recorded. -/
inductive ReportEvent where
  | downloadFailed (versionCode : Int)
  | downloadSucceeded (versionCode : Int)
  | extractFailed (versionCode : Int)
  | extractSucceeded (versionCode : Int)
  | scriptFailed (versionCode : Int)
  | updatedMismatch (fromV toV currentV : Int)
  | updated (fromV toV : Int)
deriving DecidableEq

/-- Outcomes of the external calls one runUpdateCycle invocation makes:
the update check, the package download, the extraction, the script run,
the re-read of the installed version after the script
(config.GetCurrentVersion, which the caller defaults to 0 on error), and
the poll interval configured before the cycle. -/
structure CycleEnv where
  check : Except CErr UpdateInfo
  download : Except CErr Unit
  unzip : Except CErr Unit
  script : Except CErr Unit
  versionAfter : Except CErr Int
  pollIntervalSeconds : Int

/-- Result of one runUpdateCycle invocation: the returned error value,
which stages were attempted, the poll interval left in the shared
configuration, and the status reports attempted. -/
structure CycleOut where
  result : Except CErr Unit
  downloadAttempted : Bool
  extractAttempted : Bool
  scriptAttempted : Bool
  pollIntervalSeconds : Int
  reports : List ReportEvent

/-- The type assertion err.(*cstmerr.TimeoutError) used by runUpdateCycle. -/
def isTimeoutCErr : CErr → Bool
  | .timeoutErr _ => true
  | _ => false

/-- The type assertion err.(*cstmerr.ScriptError) used by runUpdateCycle. -/
def isScriptCErr : CErr → Bool
  | .scriptErr _ => true
  | _ => false

/-- Model of runUpdateCycle (main package).  Filename derivation and the
removal of a stale extraction directory / cleanup after an extraction
failure touch only paths derived from the download directory and are not
tracked; the stage structure, the error propagation, the poll-interval
mutation and the status reports follow the source. -/
def runUpdateCycle (env : CycleEnv) (currentVersion : Int) : CycleOut :=
  match env.check with
  | .error e =>
    { result := .error e, downloadAttempted := false, extractAttempted := false,
      scriptAttempted := false, pollIntervalSeconds := env.pollIntervalSeconds,
      reports := [] }
  | .ok u =>
    if u.versionCode > currentVersion then
      match env.download with
      | .error e =>
        { result := .error e, downloadAttempted := true,
          extractAttempted := false, scriptAttempted := false,
          pollIntervalSeconds := if isTimeoutCErr e then 1 else 300,
          reports := [.downloadFailed u.versionCode] }
      | .ok _ =>
        match env.unzip with
        | .error e =>
          { result := .error e, downloadAttempted := true,
            extractAttempted := true, scriptAttempted := false,
            pollIntervalSeconds := env.pollIntervalSeconds,
            reports := [.downloadSucceeded u.versionCode,
                        .extractFailed u.versionCode] }
        | .ok _ =>
          match env.script with
          | .error e =>
            { result := .error e, downloadAttempted := true,
              extractAttempted := true, scriptAttempted := true,
              pollIntervalSeconds := env.pollIntervalSeconds,
              reports := [.downloadSucceeded u.versionCode,
                          .extractSucceeded u.versionCode] ++
                (if isScriptCErr e then [.scriptFailed u.versionCode] else []) }
          | .ok _ =>
            let checkCur := match env.versionAfter with
              | .ok v => v
              | .error _ => 0
            { result := .ok (), downloadAttempted := true,
              extractAttempted := true, scriptAttempted := true,
              pollIntervalSeconds := 300,
              reports := [.downloadSucceeded u.versionCode,
                          .extractSucceeded u.versionCode] ++
                (if checkCur ≠ u.versionCode then
                   [.updatedMismatch currentVersion u.versionCode checkCur]
                 else [.updated currentVersion u.versionCode]) }
    else
      { result := .ok (), downloadAttempted := false, extractAttempted := false,
        scriptAttempted := false, pollIntervalSeconds := env.pollIntervalSeconds,
        reports := [] }

/-! ### Content sync: FetchContentUpdates item loop -/

/-- The type tags with a decode case in the switch of
APIClient.FetchContentUpdates (internal/apiclient/apihandler.go). -/
def knownContentTypes : List String :=
  ["local-advertisement", "local-page", "local-movie", "local-section",
   "local-series", "local-series-episode", "local-series-season",
   "local-slider", "local-tab", "local-movie-genre", "local-poll",
   "local-section-content", "local-podcast", "local-podcastparent",
   "local-audiobook", "local-audiobookparent", "local-music", "local-album",
   "local-device-update", "local-terms-conditions"]

/-- The decoded type-specific payload (the dynamic type of
ProcessedContentSchema.Details).  Only the fields the modeled reconcilers
read are carried; the remaining known kinds are tag-only constructors. -/
inductive Details where
  | advertisement (fileLink : String) (skipDuration : Int)
  | page (name : String) (ty : String)
  | movie (fileLink : String) (movieId : Int)
  | section
  | series
  | seriesEpisode
  | seriesSeason
  | slider
  | tab
  | movieGenre
  | poll
  | sectionContent
  | podcast
  | podcastParent
  | audiobook
  | audiobookParent
  | music
  | album
  | deviceUpdate
  | termsConditions
deriving DecidableEq

/-- One element of the contents array of the content-update response
(shared.GenericContentItem).  `ty` is the JSON type tag; `content` is the
result of json.Unmarshal of the raw content under the schema selected by
that tag (`none` when unmarshalling fails; for an unknown tag no decode is
attempted and the field is unused). -/
structure RawItem where
  id : Int
  ty : String
  updatedAt : Int
  enable : Bool
  content : Option Details
deriving DecidableEq

/-- shared.ProcessedContentSchema: a decoded item handed to the
controller. -/
structure ProcessedItem where
  id : Int
  ty : String
  updatedAt : Int
  enable : Bool
  details : Details
deriving DecidableEq

/-- The per-item loop of APIClient.FetchContentUpdates: an unknown type tag
is logged and skipped, a failed decode is logged and skipped, and a
decoded item is appended to the processed list.  Neither case fails the
batch. -/
def processItems : List RawItem → List ProcessedItem
  | [] => []
  | it :: rest =>
    if knownContentTypes.contains it.ty then
      match it.content with
      | some d =>
        { id := it.id, ty := it.ty, updatedAt := it.updatedAt,
          enable := it.enable, details := d } :: processItems rest
      | none => processItems rest
    else processItems rest

/-- Model of APIClient.FetchContentUpdates after the HTTP layer: the
argument is the outcome of the GET (on success, the contents array and the
count field); on success the per-item loop above produces the processed
list. -/
def FetchContentUpdates (resp : Except CErr (List RawItem × Int)) :
    Except CErr (Int × List ProcessedItem) :=
  match resp with
  | .error e => .error e
  | .ok (contents, count) => .ok (count, processItems contents)

/-! ### Content reconcilers and the sync controller -/

/-- shared.AdvertisementLink (jsonb value embedded in Advertisement). -/
structure AdvertisementLink where
  playLink : String
  fileHash : String
  linkType : String
  originalLink : String
deriving DecidableEq

/-- shared.Advertisement (one row of the advertisement table). -/
structure Advertisement where
  contentId : Int
  skipDuration : Int
  link : AdvertisementLink
  viewCount : Int
  synced : Bool
deriving DecidableEq

/-- shared.Page (one row of the page table; tabs association not modeled
since no modeled path touches it). -/
structure PageRec where
  contentId : Int
  name : Option String
  ty : String
deriving DecidableEq

/-- The slice of the local relational store the modeled reconcilers can
touch: advertisement rows and page rows, each keyed by contentId. -/
structure DBState where
  ads : List Advertisement
  pages : List PageRec
deriving DecidableEq

/-- GORM Save = insert-or-update keyed by the primary key contentId. -/
def upsertAd (ads : List Advertisement) (ad : Advertisement) :
    List Advertisement :=
  if ads.any (fun a => a.contentId == ad.contentId) then
    ads.map (fun a => if a.contentId == ad.contentId then ad else a)
  else ads ++ [ad]

/-- Outcomes of the external calls the content reconcilers make.
GetFileInformation and DownloadFileWithRetry are called by the controller
but their bodies are not part of the provided sources, so only their
outcomes appear here; `stringMD5` abstracts the pure hex-MD5 of a URL
string (shared.CalculateStringMD5) and `calcMD5` the hex-MD5 of the first
1025 bytes of a file (shared.CalculateMD5 followed by hex encoding).
`removeVideo` is the os.Remove outcome of DeleteVideo keyed by the stored
play link; `saveAd` / `deleteAd` are the GORM Save / Delete outcomes;
`processMovie` abstracts ProcessLocalMovie, whose internals (movie-detail
fetch, zipped-video download, playlist scan) no claim depends on. -/
structure ProcEnv where
  getFileInfoMD5 : String → Except CErr String
  downloadRetry : String → String → Except CErr Unit
  stringMD5 : String → String
  calcMD5 : String → Except CErr String
  removeVideo : String → Except CErr Unit
  saveAd : Advertisement → Except CErr Unit
  deleteAd : Int → Except CErr Unit
  processMovie : DBState → Except CErr Unit × DBState

/-- Default content base path (PODBOX_UPDATE_CONTENT_BASE_PATH unset). -/
def basePath : String := "/mnt/sdcard/assets/"

def videosStr : String := "videos"

def adsStr : String := "ads"

def mp4Ext : String := ".mp4"

def mp4Type : String := "MP4"

def retryFailMsg (url : String) : String :=
  "failed to download multiple times: " ++ url

def PROCESS_HASH_ERROR : String := "unable to calculate md5 hash"

def PROCESS_DELETE_ENTITY : String := "unable to delete entity"

def PROCESS_DELETE_FILE : String := "unable to delete file"

def assertFailMsg : String := "type assertion to LocalAdvertisementSchema failed"

/-- Model of controller.DownloadVideo: derive the content-addressed file
name (the MD5 reported by GetFileInformation, falling back to the MD5 of
the URL string when that call fails) with the .mp4 suffix under
basePath/videos/<dir>, then download with retry; on retry exhaustion a
Download error is returned.  Returns (destination file, file name). -/
def DownloadVideo (env : ProcEnv) (url : String) (dir : String) :
    Except CErr (String × String) :=
  let destinationPath := joinPath (joinPath basePath videosStr) dir
  let md5 := match env.getFileInfoMD5 url with
    | .ok m => m
    | .error _ => env.stringMD5 url
  let fileName := md5 ++ mp4Ext
  let destinationFile := joinPath destinationPath fileName
  match env.downloadRetry url destinationFile with
  | .error _ => .error (.downloadErr (retryFailMsg url))
  | .ok _ => .ok (destinationFile, fileName)

/-- Model of controller.ProcessLocalAdvertisement.  Returns the error
value, the store after the call, and the media files deleted on disk.
With enable=true the video is downloaded, hashed, and an advertisement row
is composed and passed to Save — whose error the Go code discards (line
624), so a failed Save still yields a nil return.  With enable=false the
row is looked up by contentId (First: a missing row yields a DBNotFound
error which is wrapped and returned), its stored play-link file is
deleted, then the row is deleted.  The enable branch asserts the payload
type; the mismatch case (a Go panic) is modeled as a Process error and is
unreachable from ProcessContentItem. -/
def ProcessLocalAdvertisement (env : ProcEnv) (content : ProcessedItem)
    (db : DBState) : Except CErr Unit × DBState × List String :=
  if content.enable then
    match content.details with
    | .advertisement fileLink skipDuration =>
      match DownloadVideo env fileLink adsStr with
      | .error e => (.error e, db, [])
      | .ok (destinationFile, podspaceHash) =>
        match env.calcMD5 destinationFile with
        | .error _ => (.error (.processErr PROCESS_HASH_ERROR), db, [])
        | .ok h =>
          let ad : Advertisement :=
            { contentId := content.id, skipDuration := skipDuration,
              synced := false, viewCount := 0,
              link := { linkType := mp4Type, fileHash := h,
                        playLink := joinPath adsStr podspaceHash,
                        originalLink := fileLink } }
          match env.saveAd ad with
          | .ok _ => (.ok (), { db with ads := upsertAd db.ads ad }, [])
          | .error _ => (.ok (), db, [])
    | _ => (.error (.processErr assertFailMsg), db, [])
  else
    match db.ads.find? (fun a => a.contentId == content.id) with
    | none => (.error (.processErr PROCESS_DELETE_ENTITY), db, [])
    | some found =>
      match env.removeVideo found.link.playLink with
      | .error _ =>
        (.error (.processErr PROCESS_DELETE_FILE), db, [])
      | .ok _ =>
        match env.deleteAd content.id with
        | .error _ =>
          (.error (.processErr PROCESS_DELETE_ENTITY), db,
           [found.link.playLink])
        | .ok _ =>
          (.ok (),
           { db with ads := db.ads.filter (fun a => a.contentId != content.id) },
           [found.link.playLink])

/-- Model of controller.ProcessContentItem: the Details type switch.  Only
the advertisement and movie cases are active in the source; the page, tab,
slider, genre, section and poll cases are commented out, so every other
payload falls to the default branch which logs and returns nil without
touching the store. -/
def ProcessContentItem (env : ProcEnv) (content : ProcessedItem)
    (db : DBState) : Except CErr Unit × DBState × List String :=
  match content.details with
  | .advertisement _ _ => ProcessLocalAdvertisement env content db
  | .movie _ _ =>
    let r := env.processMovie db
    (r.1, r.2, [])
  | _ => (.ok (), db, [])

/-- The per-item loop of controller.FetchAndProcessContentUpdates: items in
page order; a reconciler error stops the batch and is returned before the
failing item's timestamp is accounted; after a successful item the
in-memory watermark advances to max(current, item.updatedAt). -/
def processLoop (env : ProcEnv) :
    List ProcessedItem → DBState → Int →
    Except CErr Unit × DBState × Int × List String
  | [], db, w => (.ok (), db, w, [])
  | it :: rest, db, w =>
    match ProcessContentItem env it db with
    | (.error e, db2, del) => (.error e, db2, w, del)
    | (.ok _, db2, del) =>
      let w2 := if it.updatedAt > w then it.updatedAt else w
      let r := processLoop env rest db2 w2
      (r.1, r.2.1, r.2.2.1, del ++ r.2.2.2)

/-- Model of controller.FetchAndProcessContentUpdates.  `fetchResp` is the
HTTP outcome handed to FetchContentUpdates (the request is built from the
current watermark with size 50, offset 0).  Returns the error value, the
store, and updater.LastFromTimeStamp after the call; the persistence of
the updated watermark to the store is commented out in the source, so the
advance is in-memory only. -/
def FetchAndProcessContentUpdates (env : ProcEnv)
    (fetchResp : Except CErr (List RawItem × Int))
    (lastFromTimeStamp : Int) (db : DBState) :
    Except CErr Unit × DBState × Int :=
  match FetchContentUpdates fetchResp with
  | .error e => (.error e, db, lastFromTimeStamp)
  | .ok (_count, items) =>
    let r := processLoop env items db lastFromTimeStamp
    (r.1, r.2.1, r.2.2.1)

/-- Whether an Except value is a success (err == nil in Go terms). -/
def exOk {ε α : Type} : Except ε α → Bool
  | .ok _ => true
  | .error _ => false

/-! ### Concrete fixtures used by the witnesses -/

def srvC2 : Server :=
  { head := .ok { statusCode := 200, totalSize := 3, supportsRange := true },
    get := fun _ => .error ("unused") }

def srvC3 : Server :=
  { head := .ok { statusCode := 200, totalSize := 5, supportsRange := true },
    get := fun r =>
      match r with
      | some _ => .ok { statusCode := 200, body := [9, 9, 9, 9, 9],
                        copyErr := none }
      | none => .error ("unused") }

def srvC10a : Server :=
  { head := .error ("dial tcp: connection refused"),
    get := fun _ => .error ("unused") }

def srvC10b : Server :=
  { head := .ok { statusCode := 404, totalSize := 0, supportsRange := false },
    get := fun _ => .error ("unused") }

def envC6 : CycleEnv :=
  { check := .ok { versionCode := 5, fileURL := "http://backend/pkg.zip" },
    download := .ok (), unzip := .ok (), script := .ok (),
    versionAfter := .ok 5, pollIntervalSeconds := 300 }

def srvC5 : Server :=
  { head := .ok { statusCode := 200, totalSize := 10, supportsRange := false },
    get := fun _ => .ok
      { statusCode := 200, body := [1, 2],
        copyErr := some ("read tcp: context deadline exceeded") } }

def envC5 : CycleEnv :=
  { check := .ok { versionCode := 6, fileURL := "http://backend/p.zip" },
    download := (DownloadFile srvC5 none).result,
    unzip := .ok (), script := .ok (), versionAfter := .ok 6,
    pollIntervalSeconds := 300 }

/-- A cycle environment whose download fails with a non-timeout error. -/
def envC5b : CycleEnv :=
  { check := .ok { versionCode := 6, fileURL := "http://backend/p.zip" },
    download := .error (.downloadErr ("boom")),
    unzip := .ok (), script := .ok (), versionAfter := .ok 6,
    pollIntervalSeconds := 300 }

def rawUnknownC7 : RawItem :=
  { id := 2, ty := "unknown-type", updatedAt := 200, enable := true,
    content := none }

/-- A reconciler environment in which every external call succeeds. -/
def envAdC : ProcEnv :=
  { getFileInfoMD5 := fun _ => .ok ("aa"),
    downloadRetry := fun _ _ => .ok (),
    stringMD5 := fun _ => "bb",
    calcMD5 := fun _ => .ok ("cc"),
    removeVideo := fun _ => .ok (),
    saveAd := fun _ => .ok (),
    deleteAd := fun _ => .ok (),
    processMovie := fun db => (.ok (), db) }

/-- A disable (enable=false) advertisement item. -/
def itemC8 : ProcessedItem :=
  { id := 7, ty := "local-advertisement", updatedAt := 100, enable := false,
    details := .advertisement ("http://cdn/v") 0 }

def dbEmpty : DBState := { ads := [], pages := [] }

def adRec : Advertisement :=
  { contentId := 7, skipDuration := 0, viewCount := 0, synced := false,
    link := { playLink := "ads/bb.mp4", fileHash := "cc", linkType := "MP4",
              originalLink := "http://cdn/v" } }

def dbAd : DBState := { ads := [adRec], pages := [] }

/-- The all-succeeding environment except that the database Save fails. -/
def envC9 : ProcEnv :=
  { getFileInfoMD5 := fun _ => .ok ("aa"),
    downloadRetry := fun _ _ => .ok (),
    stringMD5 := fun _ => "bb",
    calcMD5 := fun _ => .ok ("cc"),
    removeVideo := fun _ => .ok (),
    saveAd := fun _ => .error (.dbQueryErr ("GORM Save failed")),
    deleteAd := fun _ => .ok (),
    processMovie := fun db => (.ok (), db) }

def rawC9 : RawItem :=
  { id := 1, ty := "local-advertisement", updatedAt := 150, enable := true,
    content := some (.advertisement ("http://cdn/v") 5) }

def envC1 : ProcEnv :=
  { getFileInfoMD5 := fun _ => .ok ("aa"),
    downloadRetry := fun _ _ => .ok (),
    stringMD5 := fun _ => "bb",
    calcMD5 := fun _ => .ok ("cc"),
    removeVideo := fun _ => .ok (),
    saveAd := fun _ => .ok (),
    deleteAd := fun _ => .ok (),
    processMovie := fun db => (.ok (), db) }

def rawPageC1 : RawItem :=
  { id := 1, ty := "local-page", updatedAt := 100, enable := true,
    content := some (.page ("home") ("main")) }

def rawUnknownC1 : RawItem :=
  { id := 2, ty := "unknown-type", updatedAt := 200, enable := true,
    content := none }

/-! ### Theorems -/

/-- C2: if the HEAD probe reports a known total size greater than zero and
the destination file already exists with size at least that total size,
DownloadFile returns success without issuing the body GET and without
modifying the destination file, and a second call on the resulting file
again returns success with zero body bytes transferred. -/
theorem downloadFile_complete_noop (srv : Server) (h : HeadInfo)
    (c : List Nat)
    (hhead : srv.head = .ok h)
    (hstatus : h.statusCode = 200 ∨ h.statusCode = 206)
    (hsize : 0 < h.totalSize)
    (hcomplete : h.totalSize ≤ (c.length : Int)) :
    DownloadFile srv (some c) =
      { result := .ok (), getIssued := false, bytesWritten := 0,
        file := some c } ∧
    (DownloadFile srv (DownloadFile srv (some c)).file).result = .ok () ∧
    (DownloadFile srv (DownloadFile srv (some c)).file).bytesWritten = 0 := by
  have hnot : ¬(h.statusCode ≠ 200 ∧ h.statusCode ≠ 206) := by
    rcases hstatus with h1 | h1 <;> simp [h1]
  have hfull : h.totalSize > 0 ∧ resumeOffset (some c) ≥ h.totalSize :=
    ⟨hsize, by simpa [resumeOffset] using hcomplete⟩
  have hmain : DownloadFile srv (some c) =
      { result := .ok (), getIssued := false, bytesWritten := 0,
        file := some c } := by
    simp only [DownloadFile, hhead]
    rw [if_neg hnot, downloadWithHead, if_pos hfull]
  refine ⟨hmain, ?_, ?_⟩ <;> rw [hmain, hmain]

/-- C3: when a positive resume offset was sent as a Range request but the
server answers 200 (full content), DownloadFile truncates the destination
and writes the body from offset zero, so the final file equals the served
body with no concatenation of old and new content. -/
theorem downloadFile_range_not_honored (srv : Server) (h : HeadInfo)
    (c : List Nat) (g : GetResponse)
    (hhead : srv.head = .ok h)
    (hstatus : h.statusCode = 200 ∨ h.statusCode = 206)
    (hoff : c ≠ [])
    (hrange : h.supportsRange = true)
    (hincomplete : ¬(h.totalSize > 0 ∧ (c.length : Int) ≥ h.totalSize))
    (hget : srv.get (some (c.length : Int)) = .ok g)
    (hg200 : g.statusCode = 200)
    (hcopy : g.copyErr = none) :
    (DownloadFile srv (some c)).file = some g.body ∧
    (DownloadFile srv (some c)).result = .ok () := by
  have hnot : ¬(h.statusCode ≠ 200 ∧ h.statusCode ≠ 206) := by
    rcases hstatus with h1 | h1 <;> simp [h1]
  have hpos : (0 : Int) < (c.length : Int) := by
    exact_mod_cast List.length_pos.mpr hoff
  have hmain : DownloadFile srv (some c) = downloadAfterGet (some c) true g := by
    simp only [DownloadFile, hhead]
    rw [if_neg hnot, downloadWithHead]
    rw [if_neg (by simpa [resumeOffset] using hincomplete)]
    simp only [resumeOffset, hrange, hpos, decide_eq_true_eq, Bool.and_true,
      decide_eq_true, if_true]
    rw [hget]
  rw [hmain, downloadAfterGet, if_neg (by simp [hg200]), hcopy]
  simp [hg200]

/-- C10: if the HEAD probe itself fails, or returns a status other than
200 or 206, DownloadFile returns that adapter error (respectively a Head
error) without issuing the body GET and without touching the destination
file. -/
theorem downloadFile_head_gate (srv : Server) (file0 : Option (List Nat)) :
    (∀ e, srv.head = .error e →
      DownloadFile srv file0 =
        { result := .error (.clientErr e), getIssued := false,
          bytesWritten := 0, file := file0 }) ∧
    (∀ h, srv.head = .ok h → h.statusCode ≠ 200 → h.statusCode ≠ 206 →
      DownloadFile srv file0 =
        { result := .error (.headErr (headStatusMsg h.statusCode)),
          getIssued := false, bytesWritten := 0, file := file0 }) := by
  constructor
  · intro e he
    simp only [DownloadFile, he]
  · intro h hh h1 h2
    simp only [DownloadFile, hh]
    rw [if_pos ⟨h1, h2⟩]

/-- Witness for C2 at a concrete already-complete file. -/
theorem downloadFile_complete_noop_witness :
    DownloadFile srvC2 (some [7, 7, 7]) =
      { result := .ok (), getIssued := false, bytesWritten := 0,
        file := some [7, 7, 7] } ∧
    (DownloadFile srvC2 (DownloadFile srvC2 (some [7, 7, 7])).file).result =
      .ok () ∧
    (DownloadFile srvC2
        (DownloadFile srvC2 (some [7, 7, 7])).file).bytesWritten = 0 :=
  downloadFile_complete_noop srvC2 _ _ rfl (Or.inl rfl) (by decide) (by decide)

/-- Witness for C3 at a concrete partially-downloaded file and a server
that ignores the Range request. -/
theorem downloadFile_range_not_honored_witness :
    (DownloadFile srvC3 (some [1, 2])).file = some [9, 9, 9, 9, 9] ∧
    (DownloadFile srvC3 (some [1, 2])).result = .ok () :=
  downloadFile_range_not_honored srvC3 _ [1, 2] _ rfl (Or.inl rfl)
    (by decide) rfl (by decide) rfl rfl rfl

/-- Witness for C10: a failing HEAD and a HEAD with status 404. -/
theorem downloadFile_head_gate_witness :
    DownloadFile srvC10a none =
      { result := .error (.clientErr ("dial tcp: connection refused")),
        getIssued := false, bytesWritten := 0, file := none } ∧
    DownloadFile srvC10b none =
      { result := .error (.headErr (headStatusMsg 404)),
        getIssued := false, bytesWritten := 0, file := none } :=
  ⟨(downloadFile_head_gate srvC10a none).1 _ rfl,
   (downloadFile_head_gate srvC10b none).2 _ rfl (by decide) (by decide)⟩

/-- Every path the extraction loop writes carries the guarded prefix. -/
theorem unzipEntries_written_guarded (outputDir : String) :
    ∀ (entries : List ZipEntry) (written : List String),
      (∀ p ∈ written, hasPrefixStr p (cleanPath outputDir ++ slashStr) = true) →
      ∀ p ∈ (unzipEntries outputDir entries written).2,
        hasPrefixStr p (cleanPath outputDir ++ slashStr) = true := by
  intro entries
  induction entries with
  | nil =>
    intro written hw p hp
    simp only [unzipEntries, List.mem_reverse] at hp
    exact hw p hp
  | cons e rest ih =>
    intro written hw p hp
    simp only [unzipEntries] at hp
    by_cases hg : hasPrefixStr (joinPath outputDir e.name)
        (cleanPath outputDir ++ slashStr) = false
    · rw [if_pos hg] at hp
      simp only [List.mem_reverse] at hp
      exact hw p hp
    · rw [if_neg hg] at hp
      refine ih (joinPath outputDir e.name :: written) ?_ p hp
      intro q hq
      rcases List.mem_cons.mp hq with hq | hq
      · subst hq
        exact eq_true_of_ne_false hg
      · exact hw q hq

/-- If some entry's joined path escapes the guarded prefix, the extraction
loop returns an Archive error (for the first such entry). -/
theorem unzipEntries_err_of_escape (outputDir : String) :
    ∀ (entries : List ZipEntry) (written : List String),
      (∃ e ∈ entries, hasPrefixStr (joinPath outputDir e.name)
        (cleanPath outputDir ++ slashStr) = false) →
      ∃ nm, (unzipEntries outputDir entries written).1 =
        .error (.archiveErr (illegalPathMsg nm)) := by
  intro entries
  induction entries with
  | nil =>
    intro written hex
    rcases hex with ⟨e, he, _⟩
    exact absurd he (List.not_mem_nil e)
  | cons e rest ih =>
    intro written hex
    by_cases hg : hasPrefixStr (joinPath outputDir e.name)
        (cleanPath outputDir ++ slashStr) = false
    · exact ⟨e.name, by simp [unzipEntries, hg]⟩
    · rcases hex with ⟨x, hx, hxbad⟩
      rcases List.mem_cons.mp hx with hx | hx
      · subst hx
        exact absurd hxbad hg
      · have := ih (joinPath outputDir e.name :: written) ⟨x, hx, hxbad⟩
        simpa [unzipEntries, hg] using this

/-- C4: an archive entry whose joined output path is not prefixed by the
cleaned output directory plus the separator makes UnzipFile return an
Archive error, and no write is ever performed at that entry's output
path — the entry is a hard error, never skipped. -/
theorem unzip_rejects_escaping_entry (outputDir : String)
    (entries : List ZipEntry) (e : ZipEntry)
    (hmem : e ∈ entries)
    (hbad : hasPrefixStr (joinPath outputDir e.name)
      (cleanPath outputDir ++ slashStr) = false) :
    (∃ nm, (UnzipFile true entries outputDir).1 =
      .error (.archiveErr (illegalPathMsg nm))) ∧
    joinPath outputDir e.name ∉ (UnzipFile true entries outputDir).2 := by
  constructor
  · simpa [UnzipFile] using
      unzipEntries_err_of_escape outputDir entries [] ⟨e, hmem, hbad⟩
  · intro hin
    have hgood := unzipEntries_written_guarded outputDir entries []
      (by intro p hp; exact absurd hp (List.not_mem_nil p))
      (joinPath outputDir e.name) (by simpa [UnzipFile] using hin)
    rw [hbad] at hgood
    exact Bool.false_ne_true hgood

/-- Witness for C4: the classic zip-slip entry against /out. -/
theorem unzip_rejects_escaping_entry_witness :
    (∃ nm,
      (UnzipFile true [{ name := "../../etc/passwd", isDir := false }]
        ("/out")).1 = .error (.archiveErr (illegalPathMsg nm))) ∧
    joinPath ("/out") "../../etc/passwd" ∉
      (UnzipFile true [{ name := "../../etc/passwd", isDir := false }]
        ("/out")).2 :=
  unzip_rejects_escaping_entry ("/out")
    [{ name := "../../etc/passwd", isDir := false }]
    { name := "../../etc/passwd", isDir := false }
    (List.mem_singleton.mpr rfl) (by decide)

/-- C6: when the update check succeeds and the returned versionCode is at
most the locally known current version, the cycle performs no download, no
extraction and no script run, leaves the poll interval untouched, sends no
report, and returns success (the NoUpdate branch). -/
theorem runUpdateCycle_noUpdate (env : CycleEnv) (cv : Int) (u : UpdateInfo)
    (hcheck : env.check = .ok u) (hle : u.versionCode ≤ cv) :
    runUpdateCycle env cv =
      { result := .ok (), downloadAttempted := false,
        extractAttempted := false, scriptAttempted := false,
        pollIntervalSeconds := env.pollIntervalSeconds, reports := [] } := by
  simp only [runUpdateCycle, hcheck]
  rw [if_neg (not_lt.mpr hle)]

/-- Witness for C6 at current_version = 5 and backend versionCode = 5. -/
theorem runUpdateCycle_noUpdate_witness :
    runUpdateCycle envC6 5 =
      { result := .ok (), downloadAttempted := false,
        extractAttempted := false, scriptAttempted := false,
        pollIntervalSeconds := 300, reports := [] } :=
  runUpdateCycle_noUpdate envC6 5 _ rfl (by decide)

/-- C5: a copy failure whose message contains "context deadline exceeded"
is surfaced by DownloadFile as a Timeout error and any other copy failure
as a generic Download error; and when the update cycle's download step
fails with that result, the next poll interval becomes 1 second exactly
when the failure was the Timeout error and 300 seconds otherwise, a
download-failure status report is attempted, and the cycle aborts with the
error before extraction. -/
theorem download_timeout_classified (srv : Server) (h : HeadInfo)
    (file0 : Option (List Nat)) (g : GetResponse) (msg : String)
    (env : CycleEnv) (cv : Int) (u : UpdateInfo)
    (hhead : srv.head = .ok h)
    (hstatus : h.statusCode = 200 ∨ h.statusCode = 206)
    (hincomplete : ¬(h.totalSize > 0 ∧ resumeOffset file0 ≥ h.totalSize))
    (hget : srv.get
      (if decide (resumeOffset file0 > 0) && h.supportsRange then
        some (resumeOffset file0) else none) = .ok g)
    (hgst : g.statusCode = 200 ∨ g.statusCode = 206)
    (hcopy : g.copyErr = some msg)
    (hcheck : env.check = .ok u)
    (hver : u.versionCode > cv)
    (hdl : env.download = (DownloadFile srv file0).result) :
    (strContains msg cdeMsg = true →
      (DownloadFile srv file0).result = .error (.timeoutErr msg)) ∧
    (strContains msg cdeMsg = false →
      (DownloadFile srv file0).result =
        .error (.downloadErr (copyFailMsg msg))) ∧
    (runUpdateCycle env cv).pollIntervalSeconds =
      (if strContains msg cdeMsg then 1 else 300) ∧
    (runUpdateCycle env cv).reports = [.downloadFailed u.versionCode] ∧
    (runUpdateCycle env cv).extractAttempted = false ∧
    (runUpdateCycle env cv).result = (DownloadFile srv file0).result ∧
    (∀ (env2 : CycleEnv) (cv2 : Int) (u2 : UpdateInfo) (e : CErr),
      env2.check = .ok u2 → u2.versionCode > cv2 →
      env2.download = .error e →
      (runUpdateCycle env2 cv2).pollIntervalSeconds =
        (if isTimeoutCErr e then 1 else 300) ∧
      (runUpdateCycle env2 cv2).reports = [.downloadFailed u2.versionCode] ∧
      (runUpdateCycle env2 cv2).result = .error e) := by
  have hnot : ¬(h.statusCode ≠ 200 ∧ h.statusCode ≠ 206) := by
    rcases hstatus with h1 | h1 <;> simp [h1]
  have hgnot : ¬(g.statusCode ≠ 200 ∧ g.statusCode ≠ 206) := by
    rcases hgst with h1 | h1 <;> simp [h1]
  have hres : (DownloadFile srv file0).result =
      (if strContains msg cdeMsg then .error (.timeoutErr msg)
       else .error (.downloadErr (copyFailMsg msg))) := by
    simp only [DownloadFile, hhead]
    rw [if_neg hnot, downloadWithHead, if_neg hincomplete]
    simp only [hget, downloadAfterGet]
    rw [if_neg hgnot]
    simp only [hcopy]
    by_cases hc : strContains msg cdeMsg = true
    · rw [hc]; simp
    · rw [Bool.not_eq_true] at hc
      rw [hc]; simp
  have hcyc : runUpdateCycle env cv =
      { result := (DownloadFile srv file0).result, downloadAttempted := true,
        extractAttempted := false, scriptAttempted := false,
        pollIntervalSeconds :=
          if strContains msg cdeMsg then 1 else 300,
        reports := [.downloadFailed u.versionCode] } := by
    simp only [runUpdateCycle, hcheck]
    rw [if_pos hver]
    rw [hdl, hres]
    by_cases hc : strContains msg cdeMsg = true
    · rw [hc]
      simp [isTimeoutCErr, hres, hc]
    · rw [Bool.not_eq_true] at hc
      rw [hc]
      simp [isTimeoutCErr, hres, hc]
  refine ⟨?_, ?_, ?_, ?_, ?_, ?_, ?_⟩
  · intro hc; rw [hres, hc]; simp
  · intro hc; rw [hres, hc]; simp
  · rw [hcyc]
  · rw [hcyc]
  · rw [hcyc]
  · rw [hcyc]
  · intro env2 cv2 u2 e hcheck2 hver2 hdl2
    have hcyc2 : runUpdateCycle env2 cv2 =
        { result := .error e, downloadAttempted := true,
          extractAttempted := false, scriptAttempted := false,
          pollIntervalSeconds := if isTimeoutCErr e then 1 else 300,
          reports := [.downloadFailed u2.versionCode] } := by
      simp only [runUpdateCycle, hcheck2]
      rw [if_pos hver2, hdl2]
    exact ⟨by rw [hcyc2], by rw [hcyc2], by rw [hcyc2]⟩

/-- Witness for C5: a copy failure carrying a deadline-exceeded message on
a fresh download, inside a cycle where the backend offers version 6 over
current version 5. -/
theorem download_timeout_classified_witness :
    (strContains ("read tcp: context deadline exceeded") cdeMsg = true →
      (DownloadFile srvC5 none).result =
        .error (.timeoutErr ("read tcp: context deadline exceeded"))) ∧
    (strContains ("read tcp: context deadline exceeded") cdeMsg = false →
      (DownloadFile srvC5 none).result =
        .error (.downloadErr
          (copyFailMsg ("read tcp: context deadline exceeded")))) ∧
    (runUpdateCycle envC5 5).pollIntervalSeconds =
      (if strContains ("read tcp: context deadline exceeded") cdeMsg
       then 1 else 300) ∧
    (runUpdateCycle envC5 5).reports = [.downloadFailed 6] ∧
    (runUpdateCycle envC5 5).extractAttempted = false ∧
    (runUpdateCycle envC5 5).result = (DownloadFile srvC5 none).result ∧
    (runUpdateCycle envC5b 5).pollIntervalSeconds =
      (if isTimeoutCErr (.downloadErr ("boom")) then 1 else 300) ∧
    (runUpdateCycle envC5b 5).reports = [.downloadFailed 6] ∧
    (runUpdateCycle envC5b 5).result = .error (.downloadErr ("boom")) := by
  have h := download_timeout_classified srvC5 _ none _
    ("read tcp: context deadline exceeded") envC5 5 _
    rfl (Or.inl rfl) (by decide) rfl (Or.inl rfl) rfl rfl (by decide) rfl
  have h2 := h.2.2.2.2.2.2 envC5b 5 _ (.downloadErr ("boom"))
    rfl (by decide) rfl
  exact ⟨h.1, h.2.1, h.2.2.1, h.2.2.2.1, h.2.2.2.2.1, h.2.2.2.2.2.1,
    h2.1, h2.2.1, h2.2.2⟩

/-- C7: an item whose type tag matches none of the known decode cases is
skipped by the FetchContentUpdates item loop and the remaining items are
still processed; the batch never returns an error because of it. -/
theorem fetch_skips_unknown_type (pre post : List RawItem) (it : RawItem)
    (count : Int)
    (hunknown : knownContentTypes.contains it.ty = false) :
    FetchContentUpdates (.ok (pre ++ it :: post, count)) =
      .ok (count, processItems (pre ++ post)) := by
  have hskip : ∀ l : List RawItem,
      processItems (l ++ it :: post) = processItems (l ++ post) := by
    intro l
    induction l with
    | nil =>
      simp only [List.nil_append, processItems]
      rw [hunknown]
      simp
    | cons p rest ih =>
      simp only [List.cons_append, processItems, List.append_eq, ih]
  simp [FetchContentUpdates, hskip pre]

/-- Witness for C7: a batch consisting of one unknown-typed item decodes
to the empty processed list with no error. -/
theorem fetch_skips_unknown_type_witness :
    FetchContentUpdates (.ok ([rawUnknownC7], 0)) =
      .ok ((0 : Int), processItems []) :=
  fetch_skips_unknown_type [] [] rawUnknownC7 0 (by decide)

/-- C8 (amended): in the delete path of ProcessLocalAdvertisement, a
missing entity makes the lookup fail and the reconciler returns a Process
error — not-found is not treated as already-absent success; when the
entity exists and the filesystem and database calls succeed, the media
file is deleted and then the entity record is deleted. -/
theorem adDelete_notFound_and_deletion (env : ProcEnv)
    (item : ProcessedItem) (db : DBState)
    (henable : item.enable = false) :
    (db.ads.find? (fun a => a.contentId == item.id) = none →
      ProcessLocalAdvertisement env item db =
        (.error (.processErr PROCESS_DELETE_ENTITY), db, [])) ∧
    (∀ found, db.ads.find? (fun a => a.contentId == item.id) = some found →
      env.removeVideo found.link.playLink = .ok () →
      env.deleteAd item.id = .ok () →
      (ProcessLocalAdvertisement env item db).1 = .ok () ∧
      (ProcessLocalAdvertisement env item db).2.2 =
        [found.link.playLink] ∧
      ∀ a ∈ (ProcessLocalAdvertisement env item db).2.1.ads,
        a.contentId ≠ item.id) := by
  constructor
  · intro hfind
    simp only [ProcessLocalAdvertisement, henable, Bool.false_eq_true,
      if_false, hfind]
  · intro found hfind hrm hdel
    have hmain : ProcessLocalAdvertisement env item db =
        (.ok (),
         { db with ads := db.ads.filter (fun a => a.contentId != item.id) },
         [found.link.playLink]) := by
      simp only [ProcessLocalAdvertisement, henable, Bool.false_eq_true,
        if_false, hfind, hrm, hdel]
    refine ⟨by rw [hmain], by rw [hmain], ?_⟩
    intro a ha
    rw [hmain] at ha
    simp only [List.mem_filter, bne_iff_ne] at ha
    exact ha.2

/-- C8 counterexample: with no advertisement row present, the delete path
returns a Process error instead of the success the claim requires. -/
theorem adDelete_notFound_counterexample :
    (ProcessLocalAdvertisement envAdC itemC8 dbEmpty).1 =
      .error (.processErr PROCESS_DELETE_ENTITY) ∧
    (ProcessLocalAdvertisement envAdC itemC8 dbEmpty).1 ≠ .ok () := by
  refine ⟨rfl, ?_⟩
  intro h
  exact Except.noConfusion
    ((rfl : (ProcessLocalAdvertisement envAdC itemC8 dbEmpty).1 =
      .error (.processErr PROCESS_DELETE_ENTITY)).symm.trans h)

/-- Witness for the amended C8 at an empty store and at a store holding
the advertisement row. -/
theorem adDelete_notFound_and_deletion_witness :
    ProcessLocalAdvertisement envAdC itemC8 dbEmpty =
      (.error (.processErr PROCESS_DELETE_ENTITY), dbEmpty, []) ∧
    ((ProcessLocalAdvertisement envAdC itemC8 dbAd).1 = .ok () ∧
     (ProcessLocalAdvertisement envAdC itemC8 dbAd).2.2 =
       [adRec.link.playLink] ∧
     ∀ a ∈ (ProcessLocalAdvertisement envAdC itemC8 dbAd).2.1.ads,
       a.contentId ≠ itemC8.id) :=
  ⟨(adDelete_notFound_and_deletion envAdC itemC8 dbEmpty rfl).1 rfl,
   (adDelete_notFound_and_deletion envAdC itemC8 dbAd rfl).2 adRec
     rfl rfl rfl⟩

/-- C9: in the enable path of ProcessLocalAdvertisement the Save return
value is discarded, so even when every database save fails the reconciler
returns success and, through FetchAndProcessContentUpdates, the watermark
advances past the item as if it had been committed (while the store is in
fact unchanged). -/
theorem adSave_error_discarded (env : ProcEnv) (raw : RawItem)
    (fl : String) (sd : Int) (df hsh hx : String)
    (count w0 : Int) (db : DBState)
    (hty : raw.ty = "local-advertisement")
    (hcontent : raw.content = some (.advertisement fl sd))
    (henable : raw.enable = true)
    (hdl : DownloadVideo env fl adsStr = .ok (df, hsh))
    (hmd5 : env.calcMD5 df = .ok hx)
    (hsave : ∀ a, exOk (env.saveAd a) = false) :
    (ProcessLocalAdvertisement env
        { id := raw.id, ty := raw.ty, updatedAt := raw.updatedAt,
          enable := raw.enable, details := .advertisement fl sd } db).1 =
      .ok () ∧
    FetchAndProcessContentUpdates env (.ok ([raw], count)) w0 db =
      (.ok (), db, if raw.updatedAt > w0 then raw.updatedAt else w0) := by
  have hadv : ProcessLocalAdvertisement env
      { id := raw.id, ty := raw.ty, updatedAt := raw.updatedAt,
        enable := raw.enable, details := .advertisement fl sd } db =
      (.ok (), db, []) := by
    simp only [ProcessLocalAdvertisement, henable, if_true, hdl, hmd5]
    cases hs : env.saveAd
        { contentId := raw.id, skipDuration := sd, synced := false,
          viewCount := 0,
          link := { linkType := mp4Type, fileHash := hx,
                    playLink := joinPath adsStr hsh,
                    originalLink := fl } } with
    | ok v =>
      have := hsave
        { contentId := raw.id, skipDuration := sd, synced := false,
          viewCount := 0,
          link := { linkType := mp4Type, fileHash := hx,
                    playLink := joinPath adsStr hsh,
                    originalLink := fl } }
      rw [hs] at this
      exact absurd this (by simp [exOk])
    | error e => rfl
  have hitems : processItems [raw] =
      [{ id := raw.id, ty := raw.ty, updatedAt := raw.updatedAt,
         enable := raw.enable, details := .advertisement fl sd }] := by
    simp only [processItems, hty, hcontent]
    rw [if_pos (by decide)]
  refine ⟨by rw [hadv], ?_⟩
  simp only [FetchAndProcessContentUpdates, FetchContentUpdates, hitems,
    processLoop, ProcessContentItem, hadv]

/-- Witness for C9: with every Save failing, a one-item advertisement
batch still succeeds and advances the watermark to the item's
updatedAt=150 while the store stays empty. -/
theorem adSave_error_discarded_witness :
    (ProcessLocalAdvertisement envC9
        { id := rawC9.id, ty := rawC9.ty, updatedAt := rawC9.updatedAt,
          enable := rawC9.enable,
          details := .advertisement ("http://cdn/v") 5 } dbEmpty).1 =
      .ok () ∧
    FetchAndProcessContentUpdates envC9 (.ok ([rawC9], 0)) 0 dbEmpty =
      (.ok (), dbEmpty,
        if rawC9.updatedAt > 0 then rawC9.updatedAt else 0) :=
  adSave_error_discarded envC9 rawC9 ("http://cdn/v") 5
    ("/mnt/sdcard/assets/videos/ads/aa.mp4") ("aa.mp4") ("cc") 0 0 dbEmpty
    rfl rfl rfl rfl rfl (fun _ => rfl)

/-- C1 (amended): on a page of a local-page item followed by an
unknown-typed item, FetchAndProcessContentUpdates succeeds, the watermark
advances only to the page item's updatedAt (the unknown item is dropped
during fetch, before the watermark loop), and the store — in particular
the Page table — is left unchanged, because the local-page dispatch case
of ProcessContentItem is commented out and the item is a no-op. -/
theorem page_batch_watermark (env : ProcEnv) (p u : RawItem)
    (nm tyStr : String) (count w0 : Int) (db : DBState)
    (hp : p.ty = "local-page")
    (hc : p.content = some (.page nm tyStr))
    (hu : knownContentTypes.contains u.ty = false) :
    FetchAndProcessContentUpdates env (.ok ([p, u], count)) w0 db =
      (.ok (), db, if p.updatedAt > w0 then p.updatedAt else w0) := by
  have hitems : processItems [p, u] =
      [{ id := p.id, ty := p.ty, updatedAt := p.updatedAt,
         enable := p.enable, details := .page nm tyStr }] := by
    simp only [processItems, hp, hc]
    rw [if_pos (by decide), hu]
    simp
  simp only [FetchAndProcessContentUpdates, FetchContentUpdates, hitems,
    processLoop, ProcessContentItem]

/-- C1 counterexample: on the page of the claim (local-page item with
updatedAt=100, then an unknown-typed item with updatedAt=200) the run
returns success with watermark 100 — not 200 — and creates no Page
record. -/
theorem page_batch_watermark_counterexample :
    FetchAndProcessContentUpdates envC1
        (.ok ([rawPageC1, rawUnknownC1], 0)) 0 dbEmpty =
      (.ok (), dbEmpty, 100) ∧
    ¬((FetchAndProcessContentUpdates envC1
          (.ok ([rawPageC1, rawUnknownC1], 0)) 0 dbEmpty).2.2 = 200 ∧
      (FetchAndProcessContentUpdates envC1
          (.ok ([rawPageC1, rawUnknownC1], 0)) 0
          dbEmpty).2.1.pages.length = 1) := by
  refine ⟨rfl, ?_⟩
  intro hcl
  exact absurd hcl.1 (by decide)

/-- Witness for the amended C1 at the claim's concrete page. -/
theorem page_batch_watermark_witness :
    FetchAndProcessContentUpdates envC1
        (.ok ([rawPageC1, rawUnknownC1], 0)) 0 dbEmpty =
      (.ok (), dbEmpty,
        if rawPageC1.updatedAt > 0 then rawPageC1.updatedAt else 0) :=
  page_batch_watermark envC1 rawPageC1 rawUnknownC1 ("home") ("main") 0 0
    dbEmpty rfl rfl (by decide)

end EmbedUp
